import Mathlib

/-!
Verification of the AVM1 object model (`src/core/src/avm1/object.rs`).

The Rust source defines the `TObject` trait (with default methods `get` and
`is_prototype_of`), the free function `search_prototype`, and `Object::ptr_eq`.
We embed the trait-level code over an abstract object system: an object type
`Obj` together with the operations the default methods rely on
(`proto`, `has_own_property`, `get_local`, `as_ptr`).  Effectful pieces
(`get_local` may run user accessors) are modelled as functions returning
`Except`; the trace of `get_local` invocations performed by `search_prototype`
is made explicit so that side-effect claims can be stated.
-/

set_option maxRecDepth 100000

namespace Avm1

/-- The AVM1 value model (`Value<'gc>`): tagged union of primitives and object
references.  Numbers are modelled as integers; their arithmetic is irrelevant
to the object model. -/
inductive Value (Obj : Type) where
  | Undefined : Value Obj
  | Null : Value Obj
  | Boolean (b : Bool) : Value Obj
  | Number (n : Int) : Value Obj
  | String (s : String) : Value Obj
  | Object (o : Obj) : Value Obj
deriving DecidableEq, Repr

deriving instance DecidableEq for Except

/-- An abstract object system: the operations of the `TObject` trait that the
default methods `get`, `is_prototype_of` and the free function
`search_prototype` consume.  `ptr` models `as_ptr` (the opaque per-allocation
identity token); `get_local` models the possibly user-overridden own-property
read, taking the explicit `this` receiver. -/
structure ObjSys (Obj : Type) where
  ptr : Obj → Nat
  proto : Obj → Option Obj
  has_own_property : Obj → String → Bool
  get_local : Obj → String → Obj → Except String (Value Obj)

/-- The error message produced by `search_prototype` when the depth counter
reaches 255. -/
def protoDepthError : String := "Encountered an excessively deep prototype chain."

/-- The loop of `search_prototype`, with the mutable `depth` counter replaced
by the remaining budget `fuel = 255 - depth` (the Rust loop errors exactly when
`depth == 255`, i.e. when the budget is exhausted while a prototype link is
still present).  The second component records the `get_local` invocations
actually performed (the only effectful call in the loop). -/
def searchLoop (S : ObjSys Obj) (name : String) (self : Obj) :
    Option Obj → Nat → Except String (Value Obj) × List Obj
  | none, _ => (Except.ok Value.Undefined, [])
  | some _, 0 => (Except.error protoDepthError, [])
  | some p, fuel + 1 =>
      if S.has_own_property p name then (S.get_local p name self, [p])
      else searchLoop S name self (S.proto p) fuel

/-- `search_prototype` from the source: walk the prototype chain starting at
`proto`, with `depth` starting at 0 and the error raised at `depth == 255`. -/
def search_prototype (S : ObjSys Obj) (proto : Option Obj) (name : String) (self : Obj) :
    Except String (Value Obj) :=
  (searchLoop S name self proto 255).1

/-- The list of objects on which `search_prototype` invoked `get_local`. -/
def searchPrototypeTrace (S : ObjSys Obj) (proto : Option Obj) (name : String) (self : Obj) :
    List Obj :=
  (searchLoop S name self proto 255).2

/-- `TObject::get` (default method): own lookup first, otherwise delegate to
`search_prototype` starting at the receiver's prototype, with `this` bound to
the receiver. -/
def get (S : ObjSys Obj) (o : Obj) (name : String) : Except String (Value Obj) :=
  if S.has_own_property o name then S.get_local o name o
  else search_prototype S (S.proto o) name o

/-- The first `fuel` objects of the prototype chain starting at `start`
(chain order: the candidate itself, then its prototype, and so on; stops at an
absent link). -/
def protoChain (S : ObjSys Obj) : Option Obj → Nat → List Obj
  | none, _ => []
  | some _, 0 => []
  | some p, fuel + 1 => p :: protoChain S (S.proto p) fuel

/-- Whether the prototype chain starting at `start` reaches an absent link
within `fuel` steps. -/
def chainEnds (S : ObjSys Obj) : Option Obj → Nat → Bool
  | none, _ => true
  | some _, 0 => false
  | some p, fuel + 1 => chainEnds S (S.proto p) fuel

/-- `TObject::is_prototype_of` (default method), instrumented with fuel:
the Rust `while let` loop carries no depth counter, so a run that has not
finished after `fuel` iterations is reported as `none`.  `t` is the callee's
identity token (`self.as_ptr()`). -/
def isProtoOfFuel (S : ObjSys Obj) (t : Nat) : Option Obj → Nat → Option Bool
  | none, _ => some false
  | some _, 0 => none
  | some p, fuel + 1 =>
      if t = S.ptr p then some true else isProtoOfFuel S t (S.proto p) fuel

/-- `a.is_prototype_of(b)`: the walk starts at `b.proto()` and compares against
`a.as_ptr()`; `fuel` bounds the number of loop iterations observed. -/
def is_prototype_of (S : ObjSys Obj) (a b : Obj) (fuel : Nat) : Option Bool :=
  isProtoOfFuel S (S.ptr a) (S.proto b) fuel

/-- If the first owner of the property among the first `fuel` chain candidates
is `a`, the search loop returns `get_local` invoked on `a` (with the original
receiver as `this`), and that is the only `get_local` call performed. -/
lemma searchLoop_found (S : ObjSys Obj) (name : String) (self : Obj) :
    ∀ (fuel : Nat) (start : Option Obj) (a : Obj),
      (protoChain S start fuel).find? (fun p => S.has_own_property p name) = some a →
      searchLoop S name self start fuel = (S.get_local a name self, [a]) := by
  intro fuel
  induction fuel with
  | zero =>
    intro start a h
    cases start <;> simp [protoChain] at h
  | succ f ih =>
    intro start a h
    cases start with
    | none => simp [protoChain] at h
    | some p =>
      rw [protoChain] at h
      by_cases hp : S.has_own_property p name = true
      · simp only [List.find?, hp] at h
        cases h
        simp [searchLoop, hp]
      · rw [Bool.not_eq_true] at hp
        simp only [List.find?, hp] at h
        simpa [searchLoop, hp] using ih (S.proto p) a h

/-- If no candidate among the first `fuel` chain entries owns the property and
the chain reaches an absent link within `fuel` steps, the search loop yields
`Undefined` and performs no `get_local` call. -/
lemma searchLoop_undef (S : ObjSys Obj) (name : String) (self : Obj) :
    ∀ (fuel : Nat) (start : Option Obj),
      (protoChain S start fuel).find? (fun p => S.has_own_property p name) = none →
      chainEnds S start fuel = true →
      searchLoop S name self start fuel = (Except.ok Value.Undefined, []) := by
  intro fuel
  induction fuel with
  | zero =>
    intro start hf he
    cases start with
    | none => simp [searchLoop]
    | some p => simp [chainEnds] at he
  | succ f ih =>
    intro start hf he
    cases start with
    | none => simp [searchLoop]
    | some p =>
      rw [protoChain] at hf
      by_cases hp : S.has_own_property p name = true
      · simp [List.find?, hp] at hf
      · rw [Bool.not_eq_true] at hp
        simp only [List.find?, hp] at hf
        rw [chainEnds] at he
        simpa [searchLoop, hp] using ih (S.proto p) hf he

/-- If no candidate among the first `fuel` chain entries owns the property and
the chain does not reach an absent link within `fuel` steps, the search loop
fails with the depth error and performs no `get_local` call. -/
lemma searchLoop_deep (S : ObjSys Obj) (name : String) (self : Obj) :
    ∀ (fuel : Nat) (start : Option Obj),
      (protoChain S start fuel).find? (fun p => S.has_own_property p name) = none →
      chainEnds S start fuel = false →
      searchLoop S name self start fuel = (Except.error protoDepthError, []) := by
  intro fuel
  induction fuel with
  | zero =>
    intro start hf he
    cases start with
    | none => simp [chainEnds] at he
    | some p => simp [searchLoop]
  | succ f ih =>
    intro start hf he
    cases start with
    | none => simp [chainEnds] at he
    | some p =>
      rw [protoChain] at hf
      by_cases hp : S.has_own_property p name = true
      · simp [List.find?, hp] at hf
      · rw [Bool.not_eq_true] at hp
        simp only [List.find?, hp] at hf
        rw [chainEnds] at he
        simpa [searchLoop, hp] using ih (S.proto p) hf he

/-- `isProtoOfFuel` returns `some true` within `fuel` iterations exactly when
the target identity token occurs among the identity tokens of the first `fuel`
chain entries. -/
lemma isProtoOfFuel_true_iff (S : ObjSys Obj) (t : Nat) :
    ∀ (fuel : Nat) (start : Option Obj),
      isProtoOfFuel S t start fuel = some true ↔
        t ∈ (protoChain S start fuel).map S.ptr := by
  intro fuel
  induction fuel with
  | zero =>
    intro start
    cases start <;> simp [isProtoOfFuel, protoChain]
  | succ f ih =>
    intro start
    cases start with
    | none => simp [isProtoOfFuel, protoChain]
    | some p =>
      by_cases hp : t = S.ptr p
      · simp [isProtoOfFuel, protoChain, hp]
      · simp [isProtoOfFuel, protoChain, hp, ih]

/-- If the chain from `start` ends within `fuel` steps and the target token is
absent from it, the bounded walk returns `some false`. -/
lemma isProtoOfFuel_false (S : ObjSys Obj) (t : Nat) :
    ∀ (fuel : Nat) (start : Option Obj),
      chainEnds S start fuel = true →
      t ∉ (protoChain S start fuel).map S.ptr →
      isProtoOfFuel S t start fuel = some false := by
  intro fuel
  induction fuel with
  | zero =>
    intro start he hm
    cases start with
    | none => simp [isProtoOfFuel]
    | some p => simp [chainEnds] at he
  | succ f ih =>
    intro start he hm
    cases start with
    | none => simp [isProtoOfFuel]
    | some p =>
      rw [chainEnds] at he
      rw [protoChain] at hm
      simp only [List.map_cons, List.mem_cons] at hm
      push_neg at hm
      simp [isProtoOfFuel, hm.1, ih (S.proto p) he hm.2]

/-- A three-object system 0 → 1 → 2 where only object 2 owns the property;
`get_local` encodes both the defining object and the `this` receiver so the
`this` binding is observable. -/
def w1Sys : ObjSys Nat where
  ptr := fun n => n
  proto := fun n => if n == 0 then some 1 else if n == 1 then some 2 else none
  has_own_property := fun n _ => n == 2
  get_local := fun n _ self => Except.ok (Value.Number (Int.ofNat (n * 1000 + self)))

/-- A straight chain of 256 objects 0 → 1 → ⋯ → 255 where only the root-most
object 255 owns every property. -/
def chain256Sys : ObjSys Nat where
  ptr := fun n => n
  proto := fun n => if n < 255 then some (n + 1) else none
  has_own_property := fun n _ => n == 255
  get_local := fun n _ _ => Except.ok (Value.Number (Int.ofNat n))

/-- A straight chain of 257 objects 0 → 1 → ⋯ → 256 where only the root-most
object 256 owns every property. -/
def chain257Sys : ObjSys Nat where
  ptr := fun n => n
  proto := fun n => if n < 256 then some (n + 1) else none
  has_own_property := fun n _ => n == 256
  get_local := fun n _ _ => Except.ok (Value.Number (Int.ofNat n))

/-- A straight chain of 256 objects 0 → 1 → ⋯ → 255 in which no object owns
any property: a lookup from object 0 takes exactly 255 unresolved steps and
then reaches an absent prototype link. -/
def chain255Sys : ObjSys Nat where
  ptr := fun n => n
  proto := fun n => if n < 255 then some (n + 1) else none
  has_own_property := fun _ _ => false
  get_local := fun n _ _ => Except.ok (Value.Number (Int.ofNat n))

/-- A cyclic system: every object's prototype link points to object 0, whose
own prototype link is again object 0; no object owns any property. -/
def cycSys : ObjSys Nat where
  ptr := fun n => n
  proto := fun _ => some 0
  has_own_property := fun _ _ => false
  get_local := fun _ _ _ => Except.ok Value.Undefined

/-- Claim C1: if `O.has_own_property(P)` then `O.get(P)` equals
`O.get_local(P, this=O)`; otherwise `O.get(P)` equals `get_local` invoked on
the first ancestor in chain order (starting at `O.proto()`) that owns `P`,
with `this` bound to the original receiver `O`; and if no ancestor matches
before the chain ends (within the 255-step depth budget), the result is
`Undefined`. -/
theorem get_own_vs_inherited (S : ObjSys Obj) (o : Obj) (name : String) :
    (S.has_own_property o name = true → get S o name = S.get_local o name o) ∧
    (∀ a, S.has_own_property o name = false →
      (protoChain S (S.proto o) 255).find? (fun p => S.has_own_property p name) = some a →
      get S o name = S.get_local a name o) ∧
    (S.has_own_property o name = false →
      (protoChain S (S.proto o) 255).find? (fun p => S.has_own_property p name) = none →
      chainEnds S (S.proto o) 255 = true →
      get S o name = Except.ok Value.Undefined) := by
  refine ⟨?_, ?_, ?_⟩
  · intro h
    simp [get, h]
  · intro a h hf
    have hs := searchLoop_found S name o 255 (S.proto o) a hf
    simp [get, h, search_prototype, hs]
  · intro h hf he
    have hs := searchLoop_undef S name o 255 (S.proto o) hf he
    simp [get, h, search_prototype, hs]

/-- Witness for C1 on `w1Sys`: object 0 does not own the property, the first
owning ancestor is object 2, and `get` returns `get_local` on object 2 with
`this` bound to the original receiver 0. -/
theorem get_own_vs_inherited_witness :
    w1Sys.has_own_property 0 ("p") = false ∧
    (protoChain w1Sys (w1Sys.proto 0) 255).find?
      (fun p => w1Sys.has_own_property p ("p")) = some 2 ∧
    get w1Sys 0 ("p") = w1Sys.get_local 2 ("p") 0 :=
  ⟨by decide, by decide,
    (get_own_vs_inherited w1Sys 0 ("p")).2.1 2 (by decide) (by decide)⟩

/-- Counterexample to claim C2 as stated: querying from the far end of a chain
of 256 objects in which only the root-most object (reached at step counter
254) carries the property yields that property's value via `get_local`, not
the chain-depth error. -/
theorem chain256_found_not_error :
    get chain256Sys 0 ("p") = Except.ok (Value.Number 255) ∧
    get chain256Sys 0 ("p") ≠ Except.error protoDepthError := by
  refine ⟨by decide, by decide⟩

/-- Claim C2 (amended): the chain-depth error requires a 256th candidate
prototype: querying from the far end of a chain of 257 objects in which only
the root-most carries the property yields the chain-depth error; a chain of
256 such objects still resolves the property; and a lookup that takes exactly
255 unresolved steps and then reaches an absent prototype link yields
`Undefined`. -/
theorem depth_boundary :
    get chain257Sys 0 ("p") = Except.error protoDepthError ∧
    get chain256Sys 0 ("p") = Except.ok (Value.Number 255) ∧
    get chain255Sys 0 ("p") = Except.ok Value.Undefined := by
  refine ⟨by decide, by decide, by decide⟩

/-- Claim C3 (code bug): `is_prototype_of` walks prototype links with no depth
counter; on the cyclic graph `cycSys` (object 0 is its own prototype), testing
whether object 1 is a prototype of object 0 never terminates — for every
iteration budget the walk is still running — contradicting the requirement
that every traversal over the prototype graph is depth-bounded
(`search_prototype`, by contrast, is bounded at 255 steps). -/
theorem is_prototype_of_unbounded_on_cycle :
    ∀ fuel : Nat, is_prototype_of cycSys 1 0 fuel = none := by
  have h : ∀ f : Nat, isProtoOfFuel cycSys 1 (some 0) f = none := by
    intro f
    induction f with
    | zero => rfl
    | succ g ih => simpa [isProtoOfFuel, cycSys] using ih
  intro fuel
  simpa [is_prototype_of, cycSys] using h fuel

/-- Claim C4: `a.is_prototype_of(b)` returns true precisely when `a`'s
identity token (`as_ptr`) occurs among the identity tokens of `b`'s ancestors
(the walk starts at `b.proto()` and never checks `b` itself); consequently,
when `a`'s own ancestor chain terminates and does not contain `a`'s token,
`a.is_prototype_of(a)` is false. -/
theorem is_prototype_of_iff_ancestor (S : ObjSys Obj) (a b : Obj) (fuel : Nat) :
    (is_prototype_of S a b fuel = some true ↔
      S.ptr a ∈ (protoChain S (S.proto b) fuel).map S.ptr) ∧
    (chainEnds S (S.proto a) fuel = true →
      S.ptr a ∉ (protoChain S (S.proto a) fuel).map S.ptr →
      is_prototype_of S a a fuel = some false) := by
  constructor
  · exact isProtoOfFuel_true_iff S (S.ptr a) fuel (S.proto b)
  · intro he hm
    exact isProtoOfFuel_false S (S.ptr a) fuel (S.proto a) he hm

/-- Witness for C4 on `chain255Sys`: object 0's ancestor chain terminates, its
token is not among its ancestors' tokens, and `0.is_prototype_of(0)` is
false. -/
theorem is_prototype_of_iff_ancestor_witness :
    chainEnds chain255Sys (chain255Sys.proto 0) 255 = true ∧
    chain255Sys.ptr 0 ∉ (protoChain chain255Sys (chain255Sys.proto 0) 255).map chain255Sys.ptr ∧
    is_prototype_of chain255Sys 0 0 255 = some false :=
  ⟨by decide, by decide,
    (is_prototype_of_iff_ancestor chain255Sys 0 0 255).2 (by decide) (by decide)⟩

/-- Claim C9: on the chain-depth error path — no candidate among the first 255
prototypes owns the property and the chain has not ended — `search_prototype`
returns the depth error and its trace of `get_local` invocations is empty: the
error is reached purely by following `proto()` links, with no property-read
side effects. -/
theorem search_prototype_error_no_get_local (S : ObjSys Obj) (start : Option Obj)
    (name : String) (self : Obj)
    (hf : (protoChain S start 255).find? (fun p => S.has_own_property p name) = none)
    (he : chainEnds S start 255 = false) :
    search_prototype S start name self = Except.error protoDepthError ∧
    searchPrototypeTrace S start name self = [] := by
  have h := searchLoop_deep S name self 255 start hf he
  exact ⟨by rw [search_prototype, h], by rw [searchPrototypeTrace, h]⟩

/-- Witness for C9 on the cyclic system `cycSys`: the depth-error hypotheses
hold concretely, the search fails with the depth error, and no `get_local`
call was performed. -/
theorem search_prototype_error_no_get_local_witness :
    (protoChain cycSys (some 0) 255).find? (fun p => cycSys.has_own_property p ("p")) = none ∧
    chainEnds cycSys (some 0) 255 = false ∧
    search_prototype cycSys (some 0) ("p") 7 = Except.error protoDepthError ∧
    searchPrototypeTrace cycSys (some 0) ("p") 7 = [] := by
  refine ⟨by decide, by decide, ?_, ?_⟩
  · exact (search_prototype_error_no_get_local cycSys (some 0) ("p") 7 (by decide) (by decide)).1
  · exact (search_prototype_error_no_get_local cycSys (some 0) ("p") 7 (by decide) (by decide)).2

/-- Property attributes (`Attribute`): Hidden excludes a slot from
enumeration, Permanent forbids deletion, ReadOnly rejects writes. -/
structure Attr where
  hidden : Bool
  permanent : Bool
  read_only : Bool
deriving DecidableEq, Repr

/-- The attribute set of a freshly created data slot: no flags. -/
def defaultAttr : Attr := ⟨false, false, false⟩

/-- A data-backed property slot: a stored value with its attribute set. -/
structure PropSlot (Obj : Type) where
  value : Value Obj
  attr : Attr
deriving DecidableEq, Repr

/-- Modelled from the spec: the storage of the concrete array-backed object
kind (`ScriptObject`), which is not under `src/` (the trait only declares its
operations).  Named-property storage is a key-to-slot map; array storage is a
dense value sequence whose length is the object's `length`. -/
structure SObj (Obj : Type) where
  props : String → Option (PropSlot Obj)
  arr : List (Value Obj)

/-- The decimal key strings mirroring array indices `[lo, lo + n)` into
named-property storage. -/
def idxKeys (lo n : Nat) : List String :=
  (List.range' lo n).map toString

/-- `is_property_enumerable` on the modelled storage: a named own property
exists and is not Hidden. -/
def is_property_enumerable (o : SObj Obj) (name : String) : Bool :=
  match o.props name with
  | some s => !s.attr.hidden
  | none => false

/-- Modelled from the spec: `set_length` of the array-backed object kind is
declared but not implemented under `src/`.  If `n` exceeds the current length,
indices `[old, n)` are created in both array storage and named-property
storage, each set to `Undefined`; if `n` is below the current length, indices
`[n, old)` are removed from both storages; the length becomes `n`. -/
def set_length (o : SObj Obj) (n : Nat) : SObj Obj :=
  if n < o.arr.length then
    { props := fun k => if k ∈ idxKeys n (o.arr.length - n) then none else o.props k,
      arr := o.arr.take n }
  else
    { props := fun k =>
        if k ∈ idxKeys o.arr.length (n - o.arr.length) then some ⟨Value.Undefined, defaultAttr⟩
        else o.props k,
      arr := o.arr ++ List.replicate (n - o.arr.length) Value.Undefined }

/-- Modelled from the spec: `set_array_element` of the array-backed object
kind is declared but not implemented under `src/`.  If `i` is at least the
current length, the length becomes `i + 1` with the gap backfilled with
`Undefined` in both storages; element `i` is then set to `v` in both storages;
the (possibly updated) length is returned. -/
def set_array_element (o : SObj Obj) (i : Nat) (v : Value Obj) : SObj Obj × Nat :=
  let o1 := if o.arr.length ≤ i then set_length o (i + 1) else o
  let o2 : SObj Obj :=
    { props := fun k => if k = toString i then some ⟨v, defaultAttr⟩ else o1.props k,
      arr := o1.arr.set i v }
  (o2, o2.arr.length)

/-- Modelled from the spec: `delete` of the array-backed object kind is
declared but not implemented under `src/` (the trait signature already fixes
the `bool` return type).  It removes an own property and returns a boolean,
never an error; it returns `false`, leaving the object untouched, when the
property is absent or carries the Permanent attribute. -/
def delete (o : SObj Obj) (name : String) : Bool × SObj Obj :=
  match o.props name with
  | none => (false, o)
  | some s =>
      if s.attr.permanent then (false, o)
      else (true, { props := fun k => if k = name then none else o.props k, arr := o.arr })

/-- The array/property synchronization invariant: every index below the length
is present in array storage and is mirrored as an enumerable named
property. -/
def arraySync (o : SObj Obj) : Prop :=
  ∀ i, i < o.arr.length →
    (o.arr[i]?).isSome = true ∧ is_property_enumerable o (toString i) = true

/-- Distinctness of the decimal key strings of the indices below `m` (true of
the actual decimal rendering; stated as a bounded, decidable hypothesis). -/
def keysInj (m : Nat) : Prop :=
  ∀ i, i < m → ∀ j, j < m → toString i = toString j → i = j

instance (m : Nat) : Decidable (keysInj m) :=
  inferInstanceAs (Decidable (∀ i, i < m → ∀ j, j < m → toString i = toString j → i = j))

instance (o : SObj Obj) : Decidable (arraySync o) :=
  inferInstanceAs (Decidable (∀ i, i < o.arr.length →
    (o.arr[i]?).isSome = true ∧ is_property_enumerable o (toString i) = true))

lemma mem_idxKeys (k : String) (lo n : Nat) :
    k ∈ idxKeys lo n ↔ ∃ i, (lo ≤ i ∧ i < lo + n) ∧ toString i = k := by
  simp [idxKeys, List.mem_range'_1]

lemma toString_mem_idxKeys (i lo n : Nat) (h1 : lo ≤ i) (h2 : i < lo + n) :
    toString i ∈ idxKeys lo n :=
  (mem_idxKeys _ _ _).mpr ⟨i, ⟨h1, h2⟩, rfl⟩

lemma set_length_length (o : SObj Obj) (n : Nat) : (set_length o n).arr.length = n := by
  by_cases h : n < o.arr.length <;> simp [set_length, h] <;> omega

lemma set_length_getElem?_new (o : SObj Obj) (n i : Nat)
    (h1 : o.arr.length ≤ i) (h2 : i < n) :
    (set_length o n).arr[i]? = some Value.Undefined := by
  have h : ¬ n < o.arr.length := by omega
  simp only [set_length, if_neg h]
  rw [List.getElem?_append_right h1, List.getElem?_replicate_of_lt (by omega)]

lemma set_length_getElem?_keep (o : SObj Obj) (n i : Nat)
    (h1 : i < o.arr.length) (h2 : i < n) :
    (set_length o n).arr[i]? = o.arr[i]? := by
  by_cases h : n < o.arr.length
  · simp only [set_length, if_pos h]
    exact List.getElem?_take_of_lt h2
  · simp only [set_length, if_neg h]
    exact List.getElem?_append_left h1

lemma set_length_getElem?_removed (o : SObj Obj) (n i : Nat) (h : n ≤ i) :
    (set_length o n).arr[i]? = none :=
  List.getElem?_eq_none (by rw [set_length_length]; omega)

lemma set_length_props_new (o : SObj Obj) (n i : Nat)
    (h1 : o.arr.length ≤ i) (h2 : i < n) :
    (set_length o n).props (toString i) = some ⟨Value.Undefined, defaultAttr⟩ := by
  have h : ¬ n < o.arr.length := by omega
  simp only [set_length, if_neg h]
  rw [if_pos (toString_mem_idxKeys i _ _ h1 (by omega))]

lemma set_length_props_removed (o : SObj Obj) (n i : Nat)
    (h1 : n ≤ i) (h2 : i < o.arr.length) :
    (set_length o n).props (toString i) = none := by
  have h : n < o.arr.length := by omega
  simp only [set_length, if_pos h]
  rw [if_pos (toString_mem_idxKeys i _ _ h1 (by omega))]

lemma set_length_props_keep (o : SObj Obj) (n : Nat) (k : String)
    (hg : ∀ i, o.arr.length ≤ i → i < n → toString i ≠ k)
    (hs : ∀ i, n ≤ i → i < o.arr.length → toString i ≠ k) :
    (set_length o n).props k = o.props k := by
  by_cases h : n < o.arr.length
  · simp only [set_length, if_pos h]
    have hm : k ∉ idxKeys n (o.arr.length - n) := by
      intro hm
      rcases (mem_idxKeys k n _).mp hm with ⟨i, ⟨hi1, hi2⟩, hik⟩
      exact hs i hi1 (by omega) hik
    rw [if_neg hm]
  · simp only [set_length, if_neg h]
    have hm : k ∉ idxKeys o.arr.length (n - o.arr.length) := by
      intro hm
      rcases (mem_idxKeys k _ _).mp hm with ⟨i, ⟨hi1, hi2⟩, hik⟩
      exact hg i hi1 (by omega) hik
    rw [if_neg hm]

/-- Claim C5: assuming the decimal index keys below `max old n` are distinct
(which holds of the actual decimal rendering), `set_length` preserves the
array/property synchronization invariant; the length becomes `n`; growing
creates every index in `[old, n)` in both array storage and named-property
storage, set to `Undefined`; shrinking removes every index in `[n, old)` from
both storages. -/
theorem set_length_sync (o : SObj Obj) (n : Nat)
    (hinj : keysInj (max o.arr.length n)) (hsync : arraySync o) :
    arraySync (set_length o n) ∧
    (set_length o n).arr.length = n ∧
    (∀ i, o.arr.length ≤ i → i < n →
      (set_length o n).arr[i]? = some Value.Undefined ∧
      (set_length o n).props (toString i) = some ⟨Value.Undefined, defaultAttr⟩) ∧
    (∀ i, n ≤ i → i < o.arr.length →
      (set_length o n).arr[i]? = none ∧
      (set_length o n).props (toString i) = none) := by
  refine ⟨?_, set_length_length o n, ?_, ?_⟩
  · intro i hi
    rw [set_length_length] at hi
    constructor
    · rw [List.getElem?_eq_getElem (by rw [set_length_length]; exact hi)]
      rfl
    · by_cases hio : i < o.arr.length
      · have hk : (set_length o n).props (toString i) = o.props (toString i) := by
          apply set_length_props_keep
          · intro j hj1 hj2 hje
            have := hinj j (by omega) i (by omega) hje
            omega
          · intro j hj1 hj2 hje
            have := hinj j (by omega) i (by omega) hje
            omega
        simpa [is_property_enumerable, hk] using (hsync i hio).2
      · have hk := set_length_props_new o n i (by omega) hi
        simp [is_property_enumerable, hk, defaultAttr]
  · intro i h1 h2
    exact ⟨set_length_getElem?_new o n i h1 h2, set_length_props_new o n i h1 h2⟩
  · intro i h1 h2
    exact ⟨set_length_getElem?_removed o n i h1, set_length_props_removed o n i h1 h2⟩

/-- The empty array-backed object: no named properties, empty array storage. -/
def emptyObj : SObj Nat := { props := fun _ => none, arr := [] }

/-- Witness for C5: `set_length 3` on an empty array-object yields a
synchronized object of length 3 whose array storage is three `Undefined`
values and whose keys "0", "1", "2" are enumerable named properties. -/
theorem set_length_sync_witness :
    keysInj (max emptyObj.arr.length 3) ∧ arraySync emptyObj ∧
    arraySync (set_length emptyObj 3) ∧
    (set_length emptyObj 3).arr.length = 3 ∧
    (set_length emptyObj 3).arr = [Value.Undefined, Value.Undefined, Value.Undefined] ∧
    is_property_enumerable (set_length emptyObj 3) ("0") = true ∧
    is_property_enumerable (set_length emptyObj 3) ("1") = true ∧
    is_property_enumerable (set_length emptyObj 3) ("2") = true :=
  ⟨by decide, by decide,
    (set_length_sync emptyObj 3 (by decide) (by decide)).1,
    (set_length_sync emptyObj 3 (by decide) (by decide)).2.1,
    by decide, by decide, by decide, by decide⟩

/-- Claim C6: assuming the decimal index keys below `i + 1` are distinct, for
any array-backed object with length `L ≤ i`, `set_array_element i v` makes the
length `i + 1`, backfills every newly implied index in `[L, i)` with
`Undefined` in both array and named-property storage, sets element `i` to `v`
(in both storages), and returns the updated length. -/
theorem set_array_element_extends (o : SObj Obj) (i : Nat) (v : Value Obj)
    (hinj : keysInj (i + 1)) (hlen : o.arr.length ≤ i) :
    (set_array_element o i v).2 = i + 1 ∧
    (set_array_element o i v).1.arr.length = i + 1 ∧
    (∀ j, o.arr.length ≤ j → j < i →
      (set_array_element o i v).1.arr[j]? = some Value.Undefined ∧
      (set_array_element o i v).1.props (toString j) = some ⟨Value.Undefined, defaultAttr⟩) ∧
    (set_array_element o i v).1.arr[i]? = some v ∧
    (set_array_element o i v).1.props (toString i) = some ⟨v, defaultAttr⟩ := by
  have hL : (set_length o (i + 1)).arr.length = i + 1 := set_length_length o (i + 1)
  have harr : (set_array_element o i v).1.arr = (set_length o (i + 1)).arr.set i v := by
    simp [set_array_element, hlen]
  have hprops : (set_array_element o i v).1.props = fun k =>
      if k = toString i then some ⟨v, defaultAttr⟩ else (set_length o (i + 1)).props k := by
    simp [set_array_element, hlen]
  have hlen2 : (set_array_element o i v).1.arr.length = i + 1 := by
    rw [harr, List.length_set, hL]
  refine ⟨?_, hlen2, ?_, ?_, ?_⟩
  · simp [set_array_element, hlen, hL]
  · intro j h1 h2
    constructor
    · rw [harr, List.getElem?_set_ne (by omega : i ≠ j)]
      exact set_length_getElem?_new o (i + 1) j h1 (by omega)
    · rw [hprops]
      have hne : toString j ≠ toString i := by
        intro hje
        have := hinj j (by omega) i (by omega) hje
        omega
      simp only [hne, if_false]
      exact set_length_props_new o (i + 1) j h1 (by omega)
  · rw [harr]
    exact List.getElem?_set_self (by rw [hL]; omega)
  · rw [hprops]
    simp

/-- An array-backed object of length 2 holding `[10, 20]`, mirrored in
named-property storage. -/
def exObj : SObj Nat :=
  { props := fun k =>
      if k = ("0") then some ⟨Value.Number 10, defaultAttr⟩
      else if k = ("1") then some ⟨Value.Number 20, defaultAttr⟩
      else none,
    arr := [Value.Number 10, Value.Number 20] }

/-- Witness for C6: `set_array_element 5 "v"` on an object of length 2 yields
length 6 with array storage `[10, 20, Undefined, Undefined, Undefined, "v"]`. -/
theorem set_array_element_extends_witness :
    keysInj 6 ∧ exObj.arr.length ≤ 5 ∧
    (set_array_element exObj 5 (Value.String ("v"))).2 = 6 ∧
    (set_array_element exObj 5 (Value.String ("v"))).1.arr =
      [Value.Number 10, Value.Number 20, Value.Undefined, Value.Undefined,
        Value.Undefined, Value.String ("v")] :=
  ⟨by decide, by decide,
    (set_array_element_extends exObj 5 (Value.String ("v")) (by decide) (by decide)).1,
    by decide⟩

/-- Claim C7: `delete` returns a boolean and never an error (its type is
`bool`); it yields `false` and leaves the object untouched both when the named
own property is absent and when the property is marked Permanent, and in the
Permanent case the property remains readable afterwards. -/
theorem delete_boolean_not_error (o : SObj Obj) (name : String) :
    (o.props name = none → delete o name = (false, o)) ∧
    (∀ s, o.props name = some s → s.attr.permanent = true →
      delete o name = (false, o) ∧ (delete o name).2.props name = some s) := by
  constructor
  · intro h
    simp [delete, h]
  · intro s h hp
    constructor
    · simp [delete, h, hp]
    · simp [delete, h, hp]

/-- An object with a single Permanent-flagged property "p". -/
def permObj : SObj Nat :=
  { props := fun k => if k = ("p") then some ⟨Value.Number 7, ⟨false, true, false⟩⟩ else none,
    arr := [] }

/-- Witness for C7: deleting the Permanent-flagged "p" returns `false` and the
property remains readable. -/
theorem delete_boolean_not_error_witness :
    permObj.props ("p") = some ⟨Value.Number 7, ⟨false, true, false⟩⟩ ∧
    (⟨false, true, false⟩ : Attr).permanent = true ∧
    delete permObj ("p") = (false, permObj) ∧
    (delete permObj ("p")).2.props ("p") = some ⟨Value.Number 7, ⟨false, true, false⟩⟩ :=
  ⟨by decide, by decide,
    ((delete_boolean_not_error permObj ("p")).2 ⟨Value.Number 7, ⟨false, true, false⟩⟩
      (by decide) (by decide)).1,
    ((delete_boolean_not_error permObj ("p")).2 ⟨Value.Number 7, ⟨false, true, false⟩⟩
      (by decide) (by decide)).2⟩

/-- A heap of objects: the per-allocation identity token (`as_ptr`) together
with the mutable storage each handle addresses. -/
structure Heap (Obj : Type) where
  ptr : Obj → Nat
  store : Obj → SObj Obj

/-- `Object::ptr_eq`: equality of the opaque `as_ptr` identity tokens. -/
def ptr_eq (h : Heap Obj) (a b : Obj) : Bool := h.ptr a == h.ptr b

/-- Modelled from the spec: a non-reallocating `set` (the concrete
implementations are not under `src/`) updates the property storage of the
addressed allocation and leaves every identity token unchanged. -/
def hset (h : Heap Obj) (o : Obj) (name : String) (v : Value Obj) : Heap Obj :=
  { ptr := h.ptr,
    store := fun x =>
      if h.ptr x == h.ptr o then
        { props := fun k => if k = name then some ⟨v, defaultAttr⟩ else (h.store x).props k,
          arr := (h.store x).arr }
      else h.store x }

/-- A heap operation that does not reallocate: a property write or a
property read. -/
inductive HOp (Obj : Type) where
  | setOp (o : Obj) (name : String) (v : Value Obj)
  | getOp (o : Obj) (name : String)

/-- Modelled from the spec: the heap effect of one non-reallocating
operation — a read leaves the heap unchanged, a write updates storage only. -/
def applyOp (h : Heap Obj) : HOp Obj → Heap Obj
  | HOp.setOp o name v => hset h o name v
  | HOp.getOp _ _ => h

/-- Apply a sequence of non-reallocating heap operations. -/
def applyOps (h : Heap Obj) (ops : List (HOp Obj)) : Heap Obj :=
  ops.foldl applyOp h

lemma applyOps_ptr (ops : List (HOp Obj)) :
    ∀ h : Heap Obj, (applyOps h ops).ptr = h.ptr := by
  induction ops with
  | nil => intro h; rfl
  | cons op rest ih =>
    intro h
    have h1 : (applyOp h op).ptr = h.ptr := by cases op <;> rfl
    calc (applyOps h (op :: rest)).ptr
        = (applyOps (applyOp h op) rest).ptr := rfl
      _ = (applyOp h op).ptr := ih (applyOp h op)
      _ = h.ptr := h1

/-- Claim C8: `ptr_eq a b` holds exactly when the `as_ptr` identity tokens of
`a` and `b` coincide (they address the same allocation), and this identity is
stable: any sequence of non-reallocating `get`/`set` operations leaves every
identity token, and hence every `ptr_eq` result, unchanged. -/
theorem ptr_eq_iff_and_stable (h : Heap Obj) (a b : Obj) (ops : List (HOp Obj)) :
    (ptr_eq h a b = true ↔ h.ptr a = h.ptr b) ∧
    (applyOps h ops).ptr = h.ptr ∧
    ptr_eq (applyOps h ops) a b = ptr_eq h a b := by
  refine ⟨by simp [ptr_eq], applyOps_ptr ops h, ?_⟩
  rw [ptr_eq, ptr_eq, applyOps_ptr ops h]

/-- Claim C10: `ptr_eq` is an equivalence relation on object handles —
reflexive, symmetric and transitive — because it is equality of the `as_ptr`
identity tokens. -/
theorem ptr_eq_equivalence (h : Heap Obj) (a b c : Obj) :
    ptr_eq h a a = true ∧
    (ptr_eq h a b = true → ptr_eq h b a = true) ∧
    (ptr_eq h a b = true → ptr_eq h b c = true → ptr_eq h a c = true) := by
  refine ⟨by simp [ptr_eq], ?_, ?_⟩
  · intro h1
    simp only [ptr_eq, beq_iff_eq] at h1 ⊢
    exact h1.symm
  · intro h1 h2
    simp only [ptr_eq, beq_iff_eq] at h1 h2 ⊢
    exact h1.trans h2

/-- A heap over `Nat` handles in which handles 0, 1 and 2 all address the same
allocation (token 7). -/
def aliasHeap : Heap Nat :=
  { ptr := fun _ => 7, store := fun _ => emptyObj }

/-- Witness for C10: on `aliasHeap`, `ptr_eq 0 1` and `ptr_eq 1 2` hold, and
transitivity yields `ptr_eq 0 2`. -/
theorem ptr_eq_equivalence_witness :
    ptr_eq aliasHeap 0 1 = true ∧ ptr_eq aliasHeap 1 2 = true ∧
    ptr_eq aliasHeap 0 2 = true :=
  ⟨by decide, by decide, (ptr_eq_equivalence aliasHeap 0 1 2).2.2 (by decide) (by decide)⟩

end Avm1
